import Mathlib

/-!
# Verification of the `aitk` client-composition core

Shallow embedding of the repository's protocol layer (`src/protocol/entity.rs`,
`src/protocol/tool.rs`) and of the composite router client
(`src/clients/router.rs`), together with theorems settling the spec claims.

Rust strings are modelled as Lean `String` (a list of characters); Rust byte
indexing coincides with character indexing on the ASCII inputs the claims use.
A Rust `Vec` is a Lean `List`; the router's `HashMap` is an association list
whose iteration order is the deterministic refinement used throughout.
A Rust panic (an uncontrolled abort, e.g. an out-of-bounds slice) is made
explicit through the `Outcome` type below.

The crate's `ClientResult` / `ClientError` types and the `Message` /
`MessageContent` DTOs live in a protocol module that is not part of the
source tree at hand (only their callers are); they are modelled from the
spec where indicated.
-/

/-- Outcome of running a piece of Rust code that may panic:
either a normal value or an uncontrolled abort. -/
inductive Outcome (α : Type) where
  | ok (val : α)
  | panicked
  deriving DecidableEq, Repr

namespace Aitk

/-! ## Strings: helpers mirroring Rust `str` primitives -/

/-- `str::split_once(sep)` on a character list: split at the first occurrence
of `sep`; `none` when `sep` does not occur. -/
def splitOnceList (sep : Char) : List Char → Option (List Char × List Char)
  | [] => none
  | c :: rest =>
    if c = sep then some ([], rest)
    else (splitOnceList sep rest).map (fun p => (c :: p.1, p.2))

/-- `str::split_once(sep)` on a `String`. -/
def splitOnce (sep : Char) (s : String) : Option (String × String) :=
  (splitOnceList sep s.data).map (fun p => (String.mk p.1, String.mk p.2))

/-- `str::parse::<usize>()`: an optional leading `+`, then one or more decimal
digits, value below `2 ^ 64` (64-bit `usize`); anything else is `Err`. -/
def parseUsize (s : String) : Option Nat :=
  let digits := match s.data with
    | '+' :: rest => rest
    | l => l
  if digits ≠ [] ∧ digits.all Char.isDigit then
    let n := digits.foldl (fun acc c => acc * 10 + (c.toNat - '0'.toNat)) 0
    if n < 2 ^ 64 then some n else none
  else none

/-! ## `src/protocol/entity.rs` -/

/-- The picture/avatar of an entity (`EntityAvatar`). -/
inductive EntityAvatar where
  | text (s : String)
  | image (s : String)
  deriving DecidableEq, Repr

/-- A capability self-reported by a bot (`BotCapability`). -/
inductive BotCapability where
  | textInput
  | textOutput
  | realtime
  | attachmentInput
  | attachmentOutput
  | functionCalling
  deriving DecidableEq, Repr

/-- Set of capabilities of a bot (`BotCapabilities`, a `HashSet` in the
source; modelled as the list of its elements). -/
structure BotCapabilities where
  capabilities : List BotCapability
  deriving DecidableEq, Repr

/-- `BotId`: a newtype over an (interned) string (`SmolStr`). -/
structure BotId where
  str : String
  deriving DecidableEq, Repr

namespace BotId

/-- `BotId::as_str`. -/
def as_str (b : BotId) : String := b.str

/-- `BotId::new`. -/
def new (id : String) : BotId := ⟨id⟩

/-- The derived `Serialize` instance of the newtype `BotId(SmolStr)`:
it always emits the inner string, i.e. the bare canonical form. -/
def serialize (b : BotId) : String := b.str

/-- The `v1` legacy parser inside `BotId::deserialize`
(`src/protocol/entity.rs`, lines 176-183).

The id is encoded as `<id_len>;<id>@<provider>`.  The Rust function returns
`Option<SmolStr>`; its two slicing expressions `&raw[..id_length]` and
`&raw[id_length + 1..]` are direct index operations that abort (panic) when
the index exceeds the length, so the model's result is an `Outcome` around
that `Option`. -/
def v1 (raw : String) : Outcome (Option String) :=
  match splitOnce ';' raw with
  | none => .ok none
  | some (idLength, raw) =>
    match parseUsize idLength with
    | none => .ok none
    | some idLength =>
      if idLength ≤ raw.data.length then
        let id := raw.data.take idLength
        -- + 1 skips the semantic `@` separator
        if idLength + 1 ≤ raw.data.length then
          let _provider := raw.data.drop (idLength + 1)
          .ok (some (String.mk id))
        else .panicked
      else .panicked

/-- `BotId::deserialize` (lines 163-195): read the raw payload, try the `v1`
grammar first, otherwise the raw string is the current representation. -/
def deserialize (raw : String) : Outcome BotId :=
  match v1 raw with
  | .ok (some s) => .ok ⟨s⟩
  | .ok none => .ok ⟨raw⟩
  | .panicked => .panicked

end BotId

/-- `Bot` (entity.rs, lines 149-155). -/
structure Bot where
  id : BotId
  name : String
  avatar : EntityAvatar
  capabilities : BotCapabilities
  deriving DecidableEq, Repr

/-! ## The Result aggregate (`ClientResult` / `ClientError`)

The `ClientResult` module itself is not among the source files at hand, only
its callers are, so it is modelled from the spec (§3, §4.2, §7). -/

/-- Modelled from the spec: the error taxonomy
(*Network*, *Response*, *Format*, *Unknown*) of `ClientErrorKind`. -/
inductive ClientErrorKind where
  | network
  | response
  | format
  | unknown
  deriving DecidableEq, Repr

/-- Modelled from the spec: an error record (`ClientError::new(kind, message)`)
carried in a Result aggregate. -/
structure ClientError where
  kind : ClientErrorKind
  message : String
  deriving DecidableEq, Repr

/-- Modelled from the spec: the Result aggregate `ClientResult<T>` — an
optional value together with a list of errors.  Canonical shapes: pure
success (value, no errors), partial (value and errors), pure failure
(no value, at least one error). -/
structure ClientResult (α : Type) where
  value : Option α
  errors : List ClientError
  deriving DecidableEq, Repr

namespace ClientResult

/-- Modelled from the spec: success-with-value construction
(`ClientResult::new_ok`). -/
def new_ok {α : Type} (v : α) : ClientResult α := ⟨some v, []⟩

/-- Modelled from the spec: failure-with-single-error construction
(the `From<ClientError>` conversion used as `err.into()`). -/
def new_err {α : Type} (e : ClientError) : ClientResult α := ⟨none, [e]⟩

/-- Modelled from the spec: fallible construction from an optional value and
an error list (`(value, errors).try_into()`) that fails only when both are
absent. -/
def tryFrom {α : Type} (v : Option α) (es : List ClientError) :
    Option (ClientResult α) :=
  match v, es with
  | none, [] => none
  | v, es => some ⟨v, es⟩

/-- Modelled from the spec: the has-errors accessor. -/
def has_errors {α : Type} (r : ClientResult α) : Bool := !r.errors.isEmpty

end ClientResult

/-! ## Conversation DTOs -/

/-- `Tool` (`src/protocol/tool.rs`, lines 6-12). -/
structure Tool where
  name : String
  description : Option String
  input_schema : String
  deriving DecidableEq, Repr

/-- Modelled from the spec: a flat pass-through message-content record; the
core never inspects its payload. -/
structure MessageContent where
  content : String
  deriving DecidableEq, Repr

/-- Modelled from the spec: a flat pass-through conversation-message record;
the core never inspects its payload. -/
structure Message where
  content : MessageContent
  deriving DecidableEq, Repr

/-! ## `src/clients/router.rs` -/

/-- A sub-client stored behind `Box<dyn BotClient>`.  A trait object is
opaque to the router; it is modelled extensionally by the outputs of its two
contract methods (`clone_box` produces a handle sharing the same underlying
resource, so clones are interchangeable with the original and need no
separate representation). -/
structure SubClient where
  /-- The aggregate a call to `bots()` completes with. -/
  botsOutput : ClientResult (List Bot)
  /-- The stream `send(bot_id, messages, tools)` returns, as the list of its
  elements. -/
  sendOutput : BotId → List Message → List Tool → List (ClientResult MessageContent)

/-- `Item` (router.rs, lines 12-15). -/
structure Item where
  client : SubClient
  bots_result : Option (ClientResult (List Bot))

/-- `Inner` (router.rs, lines 18-20): the keyed map of items, modelled as an
association list (a deterministic refinement of `HashMap` iteration order). -/
structure Inner where
  items : List (String × Item)

namespace RouterClient

/-- The selection predicate of `cache_bots` (lines 202-207): an entry is
refetched when its cache is unset or its cached result has errors. -/
def refreshNeeded (item : Item) : Bool :=
  (item.bots_result.map (fun r => r.has_errors)).getD true

/-- The write-back step of `cache_bots` (lines 218-224): for each
`(key, result)` pair in order, if the key is still present in the map, store
the result into that entry's cache; a pair whose key is absent is dropped. -/
def writeBack (inner : Inner) (results : List (String × ClientResult (List Bot))) :
    Inner :=
  ⟨results.foldl
    (fun items kr =>
      items.map (fun kv =>
        if kv.1 = kr.1 then (kv.1, { kv.2 with bots_result := some kr.2 }) else kv))
    inner.items⟩

/-- `RouterClient::cache_bots` (lines 192-225): snapshot the entries needing
a refetch, invoke `bots()` on exactly those sub-clients, write the results
back.  Besides the new state, the model returns the list of keys whose
sub-client's `bots()` was invoked. -/
def cache_bots (inner : Inner) : Inner × List String :=
  let entries := inner.items.filter (fun kv => refreshNeeded kv.2)
  if entries.isEmpty then (inner, [])
  else
    let bots := entries.map (fun kv => (kv.1, kv.2.client.botsOutput))
    (writeBack inner bots, entries.map (fun kv => kv.1))

/-- The router's only mutation of a re-exported bot (line 70-73): rewrite
its id to `"<key>/<original id>"`, keeping every other field. -/
def namespacedBot (key : String) (bot : Bot) : Bot :=
  { bot with id := BotId.new (key ++ "/" ++ bot.id.as_str) }

/-- One iteration of the aggregation loop in `bots()` (lines 61-76). -/
def aggStep (acc : Option (List Bot) × List ClientError) (kv : String × Item) :
    Option (List Bot) × List ClientError :=
  match kv.2.bots_result with
  | none => acc
  | some result =>
    let errors := acc.2 ++ result.errors
    -- `if value.is_none() { value = Some(Vec::new()); }`
    let value := acc.1.getD []
    let value :=
      match result.value with
      | some bots => value ++ bots.map (namespacedBot kv.1)
      | none => value
    (some value, errors)

/-- `RouterClient::bots` (lines 51-83): refresh the cache, then fold the
aggregation loop over the current entries; when both the merged value and
the error list are absent the original map was empty and the result is an
empty success. -/
def bots (inner : Inner) : Inner × ClientResult (List Bot) :=
  let (inner, _invoked) := cache_bots inner
  let (value, errors) := inner.items.foldl aggStep (none, [])
  (inner, (ClientResult.tryFrom value errors).getD (ClientResult.new_ok []))

/-- `RouterClient::get_client` (lines 183-189). -/
def get_client (inner : Inner) (key : String) : Option SubClient :=
  (inner.items.find? (fun kv => kv.1 = key)).map (fun kv => kv.2.client)

/-- The Rust `Debug` rendering of a `BotId`, used by the `format!` calls in
`send`. -/
def botIdDebug (b : BotId) : String := "BotId(\x22" ++ b.str ++ "\x22)"

/-- `RouterClient::send` (lines 85-136): split the id on the first `/`; no
separator or an unknown key yields a one-element failing stream; otherwise
delegate to the sub-client with the unprefixed id and the messages and tools
unchanged.  The `once(...).flatten()` wrapper makes the overall stream equal
to the inner one. -/
def send (inner : Inner) (bot_id : BotId) (messages : List Message)
    (tools : List Tool) : Inner × List (ClientResult MessageContent) :=
  match splitOnce '/' bot_id.as_str with
  | none =>
    (inner,
      [ClientResult.new_err
        ⟨ClientErrorKind.unknown,
          "The bot id does not belong to a router: " ++ botIdDebug bot_id⟩])
  | some (key, id) =>
    let (inner, _invoked) := cache_bots inner
    match get_client inner key with
    | none =>
      (inner,
        [ClientResult.new_err
          ⟨ClientErrorKind.unknown,
            "This router has no client for the given bot id: " ++ botIdDebug bot_id⟩])
    | some client =>
      (inner, client.sendOutput (BotId.new id) messages tools)

/-- `RouterClient::invalidate_all_bots_cache` (lines 149-154). -/
def invalidate_all_bots_cache (inner : Inner) : Inner :=
  ⟨inner.items.map (fun kv => (kv.1, { kv.2 with bots_result := none }))⟩

/-- `RouterClient::invalidate_bots_cache` (lines 157-162). -/
def invalidate_bots_cache (inner : Inner) (key : String) : Inner :=
  ⟨inner.items.map (fun kv =>
    if kv.1 = key then (kv.1, { kv.2 with bots_result := none }) else kv)⟩

/-- `RouterClient::insert_client` (lines 165-174): insert or replace; the
new entry starts with an unset cache. -/
def insert_client (inner : Inner) (key : String) (client : SubClient) : Inner :=
  if inner.items.any (fun kv => kv.1 = key) then
    ⟨inner.items.map (fun kv =>
      if kv.1 = key then (key, ⟨client, none⟩) else kv)⟩
  else ⟨inner.items ++ [(key, ⟨client, none⟩)]⟩

/-- `RouterClient::remove_client` (lines 177-180). -/
def remove_client (inner : Inner) (key : String) : Inner :=
  ⟨inner.items.filter (fun kv => ¬ kv.1 = key)⟩

/-! ### Derived vocabulary used to state and prove properties -/

/-- The cumulative effect of the write-back loop on a single entry with key
`k` and item `it`: apply, in order, every `(key, result)` pair targeting `k`. -/
def wbItem (k : String) (it : Item)
    (results : List (String × ClientResult (List Bot))) : Item :=
  results.foldl
    (fun it kr => if k = kr.1 then { it with bots_result := some kr.2 } else it) it

/-- The `(key, fetched aggregate)` pairs produced by the fan-out of
`cache_bots` on a given state. -/
def refreshList (inner : Inner) : List (String × ClientResult (List Bot)) :=
  (inner.items.filter (fun kv => refreshNeeded kv.2)).map
    (fun kv => (kv.1, kv.2.client.botsOutput))

/-- The bots an entry contributes to the aggregation: its cached value's
bots, namespaced with its key; nothing when the entry has no cached value. -/
def namespacedBots (key : String) (r : ClientResult (List Bot)) : List Bot :=
  (r.value.getD []).map (namespacedBot key)

/-- The in-order concatenation of the namespaced values of the entries that
have a cached result. -/
def mergedValue (items : List (String × Item)) : List Bot :=
  (items.map (fun kv =>
    match kv.2.bots_result with
    | some r => namespacedBots kv.1 r
    | none => [])).flatten

/-- The in-order concatenation of the errors of the entries that have a
cached result. -/
def mergedErrors (items : List (String × Item)) : List ClientError :=
  (items.map (fun kv =>
    match kv.2.bots_result with
    | some r => r.errors
    | none => [])).flatten

end RouterClient

/-! ## Concrete fixtures used by witnesses and counterexamples -/

/-- A sub-client `send` behavior that streams nothing. -/
def noStream : BotId → List Message → List Tool → List (ClientResult MessageContent) :=
  fun _ _ _ => []

def botOne : Bot := ⟨BotId.new "one", "One", .text "1", ⟨[.textOutput]⟩⟩

def botTwo : Bot := ⟨BotId.new "two", "Two", .text "2", ⟨[]⟩⟩

def botM1 : Bot := ⟨BotId.new "m1", "M", .text "m", ⟨[.textOutput, .functionCalling]⟩⟩

def errBoom : ClientError := ⟨.network, "boom"⟩

/-- A sub-client whose directory call cleanly returns two bots and which
echoes the id it is asked to converse with. -/
def clientX : SubClient :=
  ⟨ClientResult.new_ok [botOne, botTwo],
    fun id _ _ => [ClientResult.new_ok ⟨"sent:" ++ id.str⟩]⟩

/-- A sub-client whose directory call is a pure failure. -/
def clientY : SubClient := ⟨⟨none, [errBoom]⟩, noStream⟩

/-- A router holding `clientX` under `"x"` and `clientY` under `"y"`. -/
def stateXY : Inner :=
  RouterClient.insert_client
    (RouterClient.insert_client ⟨[]⟩ "x" clientX) "y" clientY

/-- A router with a single entry whose cached result is a pure failure. -/
def stateYFailedCached : Inner :=
  ⟨[("y", ⟨clientY, some ⟨none, [errBoom]⟩⟩)]⟩

/-- A router with two entries, both holding clean (error-free) cached
results. -/
def stateCachedClean : Inner :=
  ⟨[("a", ⟨clientX, some (ClientResult.new_ok [botOne])⟩),
    ("b", ⟨clientY, some (ClientResult.new_ok [])⟩)]⟩

/-- A router with two uncached entries. -/
def stateC6 : Inner :=
  ⟨[("x", ⟨clientX, none⟩), ("y", ⟨clientY, none⟩)]⟩

/-- A router with a single uncached entry under `"x"`. -/
def stateXOnly : Inner := ⟨[("x", ⟨clientX, none⟩)]⟩

/-! ## Theorems

First the supporting lemmas about the string helpers, the write-back step,
the cache refresh and the aggregation loop; then one theorem (plus witness
or counterexample) per spec claim. -/

theorem splitOnceList_eq_none (sep : Char) (l : List Char) (h : sep ∉ l) :
    splitOnceList sep l = none := by
  induction l with
  | nil => rfl
  | cons c rest ih =>
    simp only [List.mem_cons, not_or] at h
    rw [splitOnceList, if_neg (fun he => h.1 he.symm), ih h.2]
    rfl

theorem splitOnceList_append (sep : Char) (k rest : List Char) (h : sep ∉ k) :
    splitOnceList sep (k ++ sep :: rest) = some (k, rest) := by
  induction k with
  | nil => simp [splitOnceList]
  | cons c ktl ih =>
    simp only [List.mem_cons, not_or] at h
    rw [List.cons_append, splitOnceList, if_neg (fun he => h.1 he.symm),
      ih h.2]
    rfl

theorem string_data_append (a b : String) : (a ++ b).data = a.data ++ b.data := by
  cases a; cases b; rfl

theorem splitOnce_eq_none (sep : Char) (s : String) (h : sep ∉ s.data) :
    splitOnce sep s = none := by
  rw [splitOnce, splitOnceList_eq_none sep s.data h]
  rfl

theorem splitOnce_prefix (key rest : String) (h : '/' ∉ key.data) :
    splitOnce '/' (key ++ "/" ++ rest) = some (key, rest) := by
  have hdata : (key ++ "/" ++ rest).data = key.data ++ '/' :: rest.data := by
    rw [string_data_append, string_data_append, List.append_assoc]
    rfl
  rw [splitOnce, hdata, splitOnceList_append '/' key.data rest.data h]
  simp

namespace RouterClient

/-! ### Lemmas about the write-back step -/

theorem wbItem_nil (k : String) (it : Item) : wbItem k it [] = it := rfl

theorem wbItem_cons (k : String) (it : Item) (kr : String × ClientResult (List Bot))
    (rs : List (String × ClientResult (List Bot))) :
    wbItem k it (kr :: rs) =
      wbItem k (if k = kr.1 then { it with bots_result := some kr.2 } else it) rs := rfl

/-- The write-back loop acts on each entry independently: folding the keyed
updates over the map equals mapping the per-entry update over the entries. -/
theorem writeBack_items (inner : Inner)
    (rs : List (String × ClientResult (List Bot))) :
    (writeBack inner rs).items =
      inner.items.map (fun kv => (kv.1, wbItem kv.1 kv.2 rs)) := by
  obtain ⟨items⟩ := inner
  induction rs generalizing items with
  | nil =>
    simp [writeBack, wbItem_nil]
  | cons kr rs ih =>
    show (writeBack ⟨items.map _⟩ rs).items = _
    rw [ih]
    rw [List.map_map]
    refine List.map_congr_left (fun kv _ => ?_)
    by_cases h : kv.1 = kr.1 <;> simp [h, wbItem_cons]

theorem wbItem_client (k : String) (it : Item)
    (rs : List (String × ClientResult (List Bot))) :
    (wbItem k it rs).client = it.client := by
  induction rs generalizing it with
  | nil => rfl
  | cons kr rs ih =>
    rw [wbItem_cons]
    by_cases h : k = kr.1
    · rw [if_pos h]; exact ih _
    · rw [if_neg h]; exact ih _

theorem wbItem_of_not_mem (k : String) (it : Item)
    (rs : List (String × ClientResult (List Bot)))
    (h : k ∉ rs.map Prod.fst) : wbItem k it rs = it := by
  induction rs generalizing it with
  | nil => rfl
  | cons kr rs ih =>
    simp only [List.map_cons, List.mem_cons, not_or] at h
    rw [wbItem_cons, if_neg h.1]
    exact ih it h.2

theorem wbItem_isSome_of_isSome (k : String) (it : Item)
    (rs : List (String × ClientResult (List Bot)))
    (h : it.bots_result.isSome = true) :
    (wbItem k it rs).bots_result.isSome = true := by
  induction rs generalizing it with
  | nil => exact h
  | cons kr rs ih =>
    rw [wbItem_cons]
    by_cases hk : k = kr.1
    · exact ih _ (by simp [hk])
    · exact ih _ (by simpa [hk] using h)

theorem wbItem_isSome_of_mem (k : String) (it : Item)
    (rs : List (String × ClientResult (List Bot)))
    (h : k ∈ rs.map Prod.fst) :
    (wbItem k it rs).bots_result.isSome = true := by
  induction rs generalizing it with
  | nil => simp at h
  | cons kr rs ih =>
    rw [wbItem_cons]
    by_cases hk : k = kr.1
    · exact wbItem_isSome_of_isSome _ _ _ (by simp [hk])
    · simp only [List.map_cons, List.mem_cons] at h
      exact ih _ (h.resolve_left hk)

/-- With pairwise-distinct keys among the written-back pairs, the entry for a
written key ends up caching exactly the result paired with it. -/
theorem wbItem_eq_of_nodup (k : String) (it : Item)
    (rs : List (String × ClientResult (List Bot)))
    (hnd : (rs.map Prod.fst).Nodup) (r : ClientResult (List Bot))
    (h : (k, r) ∈ rs) :
    (wbItem k it rs).bots_result = some r := by
  induction rs generalizing it with
  | nil => simp at h
  | cons kr rs ih =>
    simp only [List.map_cons, List.nodup_cons] at hnd
    rcases List.mem_cons.mp h with h1 | h1
    · subst h1
      rw [wbItem_cons, if_pos rfl,
        wbItem_of_not_mem _ _ _ (by simpa using hnd.1)]
    · have hk : k ≠ kr.1 :=
        fun he => hnd.1 (he ▸ List.mem_map.mpr ⟨(k, r), h1, rfl⟩)
      rw [wbItem_cons, if_neg hk]
      exact ih _ hnd.2 h1

/-- In an association list with pairwise-distinct keys a key determines its
item. -/
theorem assoc_unique {α : Type} (items : List (String × α))
    (hnd : (items.map Prod.fst).Nodup) (k : String) (a b : α)
    (ha : (k, a) ∈ items) (hb : (k, b) ∈ items) : a = b := by
  induction items with
  | nil => simp at ha
  | cons kv items ih =>
    simp only [List.map_cons, List.nodup_cons] at hnd
    rcases List.mem_cons.mp ha with h1 | h1 <;>
      rcases List.mem_cons.mp hb with h2 | h2
    · rw [← h1] at h2; exact (Prod.mk.injEq .. ▸ h2).2.symm
    · exact absurd (List.mem_map.mpr ⟨(k, b), h2, by rw [← h1]⟩) hnd.1
    · exact absurd (List.mem_map.mpr ⟨(k, a), h1, by rw [← h2]⟩) hnd.1
    · exact ih hnd.2 h1 h2

/-! ### Lemmas about `cache_bots` -/

/-- The refresh never invokes sub-clients beyond the selected subset: the
invoked keys are exactly the keys of the entries needing a refetch, in map
order. -/
theorem cache_bots_invoked (inner : Inner) :
    (cache_bots inner).2 =
      (inner.items.filter (fun kv => refreshNeeded kv.2)).map Prod.fst := by
  rw [cache_bots]
  by_cases h : (inner.items.filter (fun kv => refreshNeeded kv.2)).isEmpty
  · simp only [h, if_pos]
    rw [List.isEmpty_iff] at h
    simp [h]
  · simp [h]

/-- The state after `cache_bots`: every entry is updated by the write-back
of the refresh list. -/
theorem cache_bots_items (inner : Inner) :
    (cache_bots inner).1.items =
      inner.items.map (fun kv => (kv.1, wbItem kv.1 kv.2 (refreshList inner))) := by
  rw [cache_bots]
  by_cases h : (inner.items.filter (fun kv => refreshNeeded kv.2)).isEmpty
  · simp only [h, if_pos]
    rw [List.isEmpty_iff] at h
    have : refreshList inner = [] := by simp [refreshList, h]
    rw [this]
    simp [wbItem_nil]
  · simp only [h, if_neg, Bool.false_eq_true, not_false_iff]
    exact writeBack_items inner (refreshList inner)

/-- `cache_bots` preserves the key list. -/
theorem cache_bots_keys (inner : Inner) :
    (cache_bots inner).1.items.map Prod.fst = inner.items.map Prod.fst := by
  rw [cache_bots_items, List.map_map]
  rfl

/-- `cache_bots` does not change any entry's client handle. -/
theorem get_client_cache_bots (inner : Inner) (key : String) :
    get_client (cache_bots inner).1 key = get_client inner key := by
  rw [get_client, get_client, cache_bots_items, List.find?_map]
  have : ((fun kv : String × Item => decide (kv.1 = key)) ∘
      fun kv : String × Item => (kv.1, wbItem kv.1 kv.2 (refreshList inner))) =
      fun kv : String × Item => decide (kv.1 = key) := rfl
  rw [this]
  cases hf : inner.items.find? (fun kv => kv.1 = key) with
  | none => rfl
  | some kv => simp [wbItem_client]

/-- After `cache_bots` every entry carries a cached result. -/
theorem cache_bots_all_some (inner : Inner) :
    ∀ kv ∈ (cache_bots inner).1.items, kv.2.bots_result.isSome = true := by
  intro kv hkv
  rw [cache_bots_items] at hkv
  obtain ⟨kv0, hkv0, rfl⟩ := List.mem_map.mp hkv
  by_cases h : refreshNeeded kv0.2
  · refine wbItem_isSome_of_mem _ _ _ ?_
    have : (kv0.1, kv0.2.client.botsOutput) ∈ refreshList inner :=
      List.mem_map.mpr ⟨kv0, List.mem_filter.mpr ⟨hkv0, by simpa using h⟩, rfl⟩
    exact List.mem_map.mpr ⟨_, this, rfl⟩
  · refine wbItem_isSome_of_isSome _ _ _ ?_
    rw [refreshNeeded] at h
    cases hr : kv0.2.bots_result with
    | none => rw [hr] at h; simp at h
    | some r => rfl

/-- With pairwise-distinct keys, the refresh rewrites a selected entry's
cache to its sub-client's fresh aggregate and leaves an unselected entry
untouched. -/
theorem cache_bots_entry (inner : Inner)
    (hnd : (inner.items.map Prod.fst).Nodup) (k : String) (it : Item)
    (hmem : (k, it) ∈ inner.items) :
    (if refreshNeeded it then
        (k, { it with bots_result := some it.client.botsOutput })
      else (k, it)) ∈ (cache_bots inner).1.items := by
  rw [cache_bots_items]
  have hpost : (k, wbItem k it (refreshList inner)) ∈
      inner.items.map (fun kv => (kv.1, wbItem kv.1 kv.2 (refreshList inner))) :=
    List.mem_map.mpr ⟨(k, it), hmem, rfl⟩
  by_cases h : refreshNeeded it
  · rw [if_pos h]
    have hrs : (k, it.client.botsOutput) ∈ refreshList inner :=
      List.mem_map.mpr ⟨(k, it), List.mem_filter.mpr ⟨hmem, by simpa using h⟩, rfl⟩
    have hrsnd : ((refreshList inner).map Prod.fst).Nodup := by
      refine List.Nodup.sublist ?_ hnd
      have h1 : (refreshList inner).map Prod.fst =
          (inner.items.filter (fun kv => refreshNeeded kv.2)).map Prod.fst := by
        rw [refreshList, List.map_map]; rfl
      rw [h1]
      exact List.Sublist.map Prod.fst (List.filter_sublist inner.items)
    have heq : wbItem k it (refreshList inner) =
        { it with bots_result := some it.client.botsOutput } := by
      have h2 := wbItem_eq_of_nodup k it (refreshList inner) hrsnd _ hrs
      have h3 := wbItem_client k it (refreshList inner)
      cases hwb : wbItem k it (refreshList inner)
      rw [hwb] at h2 h3
      simp only at h2 h3
      rw [h2, h3]
    rw [← heq]; exact hpost
  · rw [if_neg h]
    have hnot : k ∉ (refreshList inner).map Prod.fst := by
      intro hk
      obtain ⟨kr, hkr, hfst⟩ := List.mem_map.mp hk
      obtain ⟨kv, hkv, hkveq⟩ := List.mem_map.mp hkr
      have hkvmem := (List.mem_filter.mp hkv).1
      have hkvref := (List.mem_filter.mp hkv).2
      have : kv.1 = k := by rw [← hfst, ← hkveq]
      have : kv.2 = it := by
        refine assoc_unique inner.items hnd k _ _ ?_ hmem
        rw [← this]; exact hkvmem
      rw [this] at hkvref
      simp [h] at hkvref
    rw [wbItem_of_not_mem _ _ _ hnot] at hpost
    exact hpost

/-! ### Lemmas about the aggregation loop -/

/-- Closed form of the aggregation loop of `bots()`: the error list is the
in-order concatenation of the cached results' errors, and the value is the
in-order concatenation of the namespaced cached values — present as soon as
the accumulator holds one or some entry has a cached result. -/
theorem foldl_aggStep (items : List (String × Item)) (v0 : Option (List Bot))
    (e0 : List ClientError) :
    items.foldl aggStep (v0, e0) =
      (if v0.isSome || items.any (fun kv => kv.2.bots_result.isSome) then
          some (v0.getD [] ++ mergedValue items)
        else none,
       e0 ++ mergedErrors items) := by
  induction items generalizing v0 e0 with
  | nil =>
    cases v0 <;> simp [mergedValue, mergedErrors]
  | cons kv items ih =>
    rw [List.foldl_cons]
    cases hr : kv.2.bots_result with
    | none =>
      have hstep : aggStep (v0, e0) kv = (v0, e0) := by
        rw [aggStep, hr]
      rw [hstep, ih]
      have hmv : mergedValue (kv :: items) = mergedValue items := by
        simp [mergedValue, hr]
      have hme : mergedErrors (kv :: items) = mergedErrors items := by
        simp [mergedErrors, hr]
      rw [hmv, hme, List.any_cons, hr, Option.isSome_none, Bool.false_or]
    | some r =>
      have hstep : aggStep (v0, e0) kv =
          (some (v0.getD [] ++ namespacedBots kv.1 r), e0 ++ r.errors) := by
        rw [aggStep, hr]
        cases hv : r.value with
        | none => simp [namespacedBots, hv]
        | some bots => simp [namespacedBots, hv]
      rw [hstep, ih]
      have hmv : mergedValue (kv :: items) =
          namespacedBots kv.1 r ++ mergedValue items := by
        simp [mergedValue, hr]
      have hme : mergedErrors (kv :: items) = r.errors ++ mergedErrors items := by
        simp [mergedErrors, hr]
      rw [hmv, hme]
      simp [hr, List.append_assoc]

/-- `bots()` in closed form: after the refresh, the returned aggregate is
exactly the merged errors together with the merged (namespaced) values of
the refreshed entries — and the value component is always present. -/
theorem bots_closed_form (inner : Inner) :
    bots inner =
      ((cache_bots inner).1,
        ⟨some (mergedValue (cache_bots inner).1.items),
          mergedErrors (cache_bots inner).1.items⟩) := by
  rw [bots]
  cases hc : cache_bots inner with
  | mk post invoked =>
    simp only
    rw [foldl_aggStep]
    cases hi : post.items with
    | nil =>
      simp [mergedValue, mergedErrors, ClientResult.tryFrom, ClientResult.new_ok]
    | cons kv items =>
      have hsome : kv.2.bots_result.isSome = true := by
        refine cache_bots_all_some inner kv ?_
        rw [hc, hi]; exact List.mem_cons_self kv items
      have hany : (kv :: items).any (fun kv => kv.2.bots_result.isSome) = true :=
        List.any_cons .. ▸ by rw [hsome]; rfl
      rw [hany]
      simp [ClientResult.tryFrom]

/-- A key is among the invoked keys of a refresh exactly when one of its
entries needs a refetch. -/
theorem mem_cache_bots_invoked (inner : Inner) (k : String) :
    k ∈ (cache_bots inner).2 ↔
      ∃ it, (k, it) ∈ inner.items ∧ refreshNeeded it = true := by
  rw [cache_bots_invoked]
  constructor
  · intro h
    obtain ⟨kv, hkv, rfl⟩ := List.mem_map.mp h
    exact ⟨kv.2, (List.mem_filter.mp hkv).1,
      by simpa using (List.mem_filter.mp hkv).2⟩
  · rintro ⟨it, hmem, href⟩
    exact List.mem_map.mpr
      ⟨(k, it), List.mem_filter.mpr ⟨hmem, by simpa using href⟩, rfl⟩

/-- With pairwise-distinct keys, the invoked-key list of a refresh has no
duplicates. -/
theorem cache_bots_invoked_nodup (inner : Inner)
    (hnd : (inner.items.map Prod.fst).Nodup) :
    (cache_bots inner).2.Nodup := by
  rw [cache_bots_invoked]
  exact List.Nodup.sublist
    (List.Sublist.map Prod.fst (List.filter_sublist inner.items)) hnd

/-- An entry holding a clean (error-free) cached result is never selected
for a refetch. -/
theorem not_invoked_of_clean (inner : Inner)
    (hnd : (inner.items.map Prod.fst).Nodup) (k : String) (it : Item)
    (hmem : (k, it) ∈ inner.items) (href : refreshNeeded it = false) :
    k ∉ (cache_bots inner).2 := by
  intro hk
  obtain ⟨it', hmem', href'⟩ := (mem_cache_bots_invoked inner k).mp hk
  rw [assoc_unique inner.items hnd k it' it hmem' hmem, href] at href'
  exact Bool.false_ne_true href'

/-- After invalidating one key on a router whose other entries all hold
clean cached results, the refetch selection contains exactly that key. -/
theorem filter_after_invalidate (items : List (String × Item)) (key : String)
    (hnd : (items.map Prod.fst).Nodup) (hkey : key ∈ items.map Prod.fst)
    (hclean : ∀ kv ∈ items, kv.1 ≠ key →
      ∃ r, kv.2.bots_result = some r ∧ r.has_errors = false) :
    ((items.map (fun kv =>
        if kv.1 = key then (kv.1, { kv.2 with bots_result := none }) else kv)).filter
      (fun kv => refreshNeeded kv.2)).map Prod.fst = [key] := by
  induction items with
  | nil => simp at hkey
  | cons kv rest ih =>
    simp only [List.map_cons, List.nodup_cons] at hnd
    by_cases h : kv.1 = key
    · rw [List.map_cons, if_pos h]
      have hrest : (rest.map (fun kv =>
          if kv.1 = key then (kv.1, { kv.2 with bots_result := none }) else kv)).filter
            (fun kv => refreshNeeded kv.2) = [] := by
        refine List.filter_eq_nil_iff.mpr ?_
        intro kv' hkv'
        obtain ⟨kv0, hkv0, rfl⟩ := List.mem_map.mp hkv'
        have hne : kv0.1 ≠ key := by
          intro he
          exact hnd.1 (List.mem_map.mpr ⟨kv0, hkv0, he.trans h.symm⟩)
        rw [if_neg hne]
        obtain ⟨r, hr, herr⟩ :=
          hclean kv0 (List.mem_cons_of_mem kv hkv0) hne
        simp [refreshNeeded, hr, herr]
      rw [List.filter_cons_of_pos (by simp [refreshNeeded]), hrest]
      simp [h]
    · rw [List.map_cons, if_neg h]
      obtain ⟨r, hr, herr⟩ := hclean kv (List.mem_cons_self kv rest) h
      rw [List.filter_cons_of_neg (by simp [refreshNeeded, hr, herr])]
      refine ih hnd.2 ?_ ?_
      · rcases List.mem_cons.mp hkey with h1 | h1
        · exact absurd h1.symm h
        · exact h1
      · intro kv' hkv' hne
        exact hclean kv' (List.mem_cons_of_mem kv hkv') hne

/-- Unfolding one step of the write-back loop. -/
theorem writeBack_cons (inner : Inner) (kr : String × ClientResult (List Bot))
    (rs : List (String × ClientResult (List Bot))) :
    writeBack inner (kr :: rs) =
      writeBack
        ⟨inner.items.map (fun kv =>
          if kv.1 = kr.1 then (kv.1, { kv.2 with bots_result := some kr.2 })
          else kv)⟩ rs := rfl

/-- A write-back step targeting a key absent from the map changes nothing. -/
theorem writeBack_step_absent (items : List (String × Item))
    (kr : String × ClientResult (List Bot)) (h : kr.1 ∉ items.map Prod.fst) :
    items.map (fun kv =>
      if kv.1 = kr.1 then (kv.1, { kv.2 with bots_result := some kr.2 })
      else kv) = items := by
  have hid : ∀ kv ∈ items,
      (if kv.1 = kr.1 then (kv.1, { kv.2 with bots_result := some kr.2 })
        else kv) = kv :=
    fun kv hkv => if_neg (fun he => h (List.mem_map.mpr ⟨kv, hkv, he⟩))
  rw [List.map_congr_left hid, List.map_id']

/-- A write-back step preserves the key list. -/
theorem writeBack_step_keys (items : List (String × Item))
    (kr : String × ClientResult (List Bot)) :
    (items.map (fun kv =>
      if kv.1 = kr.1 then (kv.1, { kv.2 with bots_result := some kr.2 })
      else kv)).map Prod.fst = items.map Prod.fst := by
  rw [List.map_map]
  refine List.map_congr_left fun kv _ => ?_
  by_cases h : kv.1 = kr.1 <;> simp [h]

/-- The write-back loop preserves the key list: it never inserts an entry. -/
theorem writeBack_keys (inner : Inner)
    (rs : List (String × ClientResult (List Bot))) :
    (writeBack inner rs).items.map Prod.fst = inner.items.map Prod.fst := by
  rw [writeBack_items, List.map_map]
  rfl

/-- Results targeting keys no longer present in the map are silently
dropped: the write-back of a result list equals the write-back of its
restriction to the keys still present. -/
theorem writeBack_filter (inner : Inner)
    (rs : List (String × ClientResult (List Bot))) :
    writeBack inner rs =
      writeBack inner
        (rs.filter (fun kr => (inner.items.map Prod.fst).contains kr.1)) := by
  induction rs generalizing inner with
  | nil => rfl
  | cons kr rs ih =>
    by_cases h : kr.1 ∈ inner.items.map Prod.fst
    · rw [List.filter_cons_of_pos (by simpa using h), writeBack_cons,
        writeBack_cons]
      have := ih ⟨inner.items.map (fun kv =>
        if kv.1 = kr.1 then (kv.1, { kv.2 with bots_result := some kr.2 })
        else kv)⟩
      rw [this]
      rw [show (⟨inner.items.map (fun kv =>
        if kv.1 = kr.1 then (kv.1, { kv.2 with bots_result := some kr.2 })
        else kv)⟩ : Inner).items.map Prod.fst = inner.items.map Prod.fst from
        writeBack_step_keys inner.items kr]
    · rw [List.filter_cons_of_neg (by simpa using h), writeBack_cons,
        writeBack_step_absent inner.items kr h]
      exact ih inner

end RouterClient

/-! ## Claim theorems -/

/-- C1: the claim states that whenever the legacy parse does not apply —
including when the declared length makes slicing the remainder out of bounds
— deserializing succeeds with the raw string verbatim, so decoding is total
and never aborts.  The code contradicts this: on `"5;ab"` (a `;`, a valid
decimal length 5, but only 2 remaining characters) the slice
`&raw[..id_length]` is out of bounds and the deserializer panics instead of
falling back; the other two fall-back cases (no `;`, invalid length) do
behave as claimed. -/
theorem c1_legacy_decode_out_of_bounds_panics :
    BotId.deserialize "5;ab" = Outcome.panicked
  ∧ BotId.deserialize "gpt-4o" = Outcome.ok (BotId.new "gpt-4o")
  ∧ BotId.deserialize "abc;def" = Outcome.ok (BotId.new "abc;def") := by
  refine ⟨?_, ?_, ?_⟩ <;> decide

/-- C7: decoding the legacy-framed `"9;qwen:0.5b@http://localhost:11434/v1"`
yields `qwen:0.5b`; decoding the bare `"gpt-4o"` yields it unchanged; and
serializing any `BotId` emits exactly its bare canonical string, never the
legacy framing. -/
theorem c7_bot_id_wire_format :
    BotId.deserialize "9;qwen:0.5b@http://localhost:11434/v1" =
      Outcome.ok (BotId.new "qwen:0.5b")
  ∧ BotId.deserialize "gpt-4o" = Outcome.ok (BotId.new "gpt-4o")
  ∧ ∀ b : BotId, BotId.serialize b = b.as_str :=
  ⟨by decide, by decide, fun _ => rfl⟩

/-- C10: for every router state, the aggregate returned by the router's
`bots()` carries a value (possibly the empty list) — it is never a pure
failure, whatever the entries and their cached results are. -/
theorem c10_bots_always_has_value (inner : Inner) :
    ((RouterClient.bots inner).2).value.isSome = true := by
  rw [RouterClient.bots_closed_form]
  rfl

/-- C2 counterexample: a router whose single entry holds a cached pure
failure (no value, one error).  At least one entry has a cached result and
every cached result is a pure failure, yet `bots()` returns an aggregate
whose value is present (the empty list), not absent as the claim states. -/
theorem c2_counterexample :
    stateYFailedCached.items.all (fun kv => kv.2.bots_result.isSome) = true
  ∧ stateYFailedCached.items.all (fun kv =>
      match kv.2.bots_result with
      | some r => r.value.isNone && !r.errors.isEmpty
      | none => true) = true
  ∧ ((RouterClient.bots stateYFailedCached).2).value = some [] := by
  refine ⟨?_, ?_, ?_⟩ <;> decide

/-- C2 (amended): in the router's `listBots()` aggregation, the merged
error list is the in-order concatenation of the cached results' errors and
the merged value is the in-order concatenation of the cached results'
(namespaced) values; the merged value is always present — when every
contributor lacks a value it is the empty list, not absent. -/
theorem c2_bots_merge_amended (inner : Inner) :
    ((RouterClient.bots inner).2).errors =
      RouterClient.mergedErrors (RouterClient.cache_bots inner).1.items
  ∧ ((RouterClient.bots inner).2).value =
      some (RouterClient.mergedValue (RouterClient.cache_bots inner).1.items) := by
  rw [RouterClient.bots_closed_form]
  exact ⟨rfl, rfl⟩

/-- C3: for a router with sub-client X (under key `"x"`) whose directory
call returns two bots and no errors and sub-client Y (under `"y"`) whose
directory call returns an error and no value, `listBots()` returns an
aggregate whose value is exactly X's two bots namespaced by `"x"` and whose
error list contains exactly Y's error — a present value alongside errors,
never an overall failure. -/
theorem c3_partial_failure_isolation (b1 b2 : Bot) (e : ClientError)
    (sendX sendY : BotId → List Message → List Tool →
      List (ClientResult MessageContent)) :
    (RouterClient.bots
      (RouterClient.insert_client
        (RouterClient.insert_client ⟨[]⟩ "x" ⟨ClientResult.new_ok [b1, b2], sendX⟩)
        "y" ⟨⟨none, [e]⟩, sendY⟩)).2 =
      ⟨some [RouterClient.namespacedBot "x" b1, RouterClient.namespacedBot "x" b2],
        [e]⟩ := by
  rfl

/-- C5: after `insert_client("a", c)` into an empty router, where `c`'s
directory reports exactly the single bot `b` with id `"m1"`, the router's
directory reports exactly one bot, whose id is `"a/m1"` and whose name,
avatar and capabilities are exactly those of `b`: rewriting the id is the
only mutation the router performs when re-exporting a bot. -/
theorem c5_namespacing_only_rewrites_id (b : Bot)
    (sendFn : BotId → List Message → List Tool →
      List (ClientResult MessageContent))
    (h : b.id = BotId.new "m1") :
    (RouterClient.bots
      (RouterClient.insert_client ⟨[]⟩ "a" ⟨ClientResult.new_ok [b], sendFn⟩)).2 =
      ⟨some [{ b with id := BotId.new "a/m1" }], []⟩ := by
  obtain ⟨id, name, avatar, caps⟩ := b
  cases h
  rfl

/-- C5 witness: the theorem applied to the concrete bot `botM1`. -/
theorem c5_witness :
    (RouterClient.bots
      (RouterClient.insert_client ⟨[]⟩ "a" ⟨ClientResult.new_ok [botM1], noStream⟩)).2 =
      ⟨some [{ botM1 with id := BotId.new "a/m1" }], []⟩ :=
  c5_namespacing_only_rewrites_id botM1 noStream rfl

/-- C4: the router's `send`/`converse` dispatch.  (1) For an id without a
`/` separator it returns a one-element failing stream and contacts no
sub-client — the state is returned untouched and the outcome does not
depend on any registered client.  (2) For `"key/rest"` where no client is
registered under `key`, it returns a one-element failing stream.  (3) For
`"key/rest"` with a client registered under `key`, it delegates to that
client with the id following the first `/` (so `rest` may contain further
`/` characters) and with the messages and tools unchanged. -/
theorem c4_send_dispatch :
    (∀ (inner : Inner) (id : BotId) (msgs : List Message) (tools : List Tool),
      '/' ∉ id.as_str.data →
      RouterClient.send inner id msgs tools =
        (inner,
          [ClientResult.new_err ⟨ClientErrorKind.unknown,
            "The bot id does not belong to a router: " ++
              RouterClient.botIdDebug id⟩]))
  ∧ (∀ (inner : Inner) (key rest : String) (msgs : List Message)
        (tools : List Tool),
      '/' ∉ key.data →
      RouterClient.get_client inner key = none →
      RouterClient.send inner (BotId.new (key ++ "/" ++ rest)) msgs tools =
        ((RouterClient.cache_bots inner).1,
          [ClientResult.new_err ⟨ClientErrorKind.unknown,
            "This router has no client for the given bot id: " ++
              RouterClient.botIdDebug (BotId.new (key ++ "/" ++ rest))⟩]))
  ∧ (∀ (inner : Inner) (key rest : String) (msgs : List Message)
        (tools : List Tool) (c : SubClient),
      '/' ∉ key.data →
      RouterClient.get_client inner key = some c →
      RouterClient.send inner (BotId.new (key ++ "/" ++ rest)) msgs tools =
        ((RouterClient.cache_bots inner).1,
          c.sendOutput (BotId.new rest) msgs tools)) := by
  refine ⟨?_, ?_, ?_⟩
  · intro inner id msgs tools h
    rw [RouterClient.send, splitOnce_eq_none '/' id.as_str h]
  · intro inner key rest msgs tools hk hget
    rw [RouterClient.send]
    have hsp : splitOnce '/' (BotId.new (key ++ "/" ++ rest)).as_str =
        some (key, rest) := splitOnce_prefix key rest hk
    rw [hsp]
    cases hc : RouterClient.cache_bots inner with
    | mk post invoked =>
      have hg : RouterClient.get_client post key = none := by
        have := RouterClient.get_client_cache_bots inner key
        rw [hc] at this
        rw [this, hget]
      simp only [hg]
  · intro inner key rest msgs tools c hk hget
    rw [RouterClient.send]
    have hsp : splitOnce '/' (BotId.new (key ++ "/" ++ rest)).as_str =
        some (key, rest) := splitOnce_prefix key rest hk
    rw [hsp]
    cases hc : RouterClient.cache_bots inner with
    | mk post invoked =>
      have hg : RouterClient.get_client post key = some c := by
        have := RouterClient.get_client_cache_bots inner key
        rw [hc] at this
        rw [this, hget]
      simp only [hg]

/-- C4 witness: the three dispatch branches at concrete inputs — no
separator, unregistered key, registered key (with a remainder that itself
contains a further `/`). -/
theorem c4_witness :
    RouterClient.send stateXY (BotId.new "m1") [] [] =
      (stateXY,
        [ClientResult.new_err ⟨ClientErrorKind.unknown,
          "The bot id does not belong to a router: " ++
            RouterClient.botIdDebug (BotId.new "m1")⟩])
  ∧ RouterClient.send stateXY (BotId.new ("missing" ++ "/" ++ "m1")) [] [] =
      ((RouterClient.cache_bots stateXY).1,
        [ClientResult.new_err ⟨ClientErrorKind.unknown,
          "This router has no client for the given bot id: " ++
            RouterClient.botIdDebug (BotId.new ("missing" ++ "/" ++ "m1"))⟩])
  ∧ RouterClient.send stateXY (BotId.new ("x" ++ "/" ++ "m1/sub")) [] [] =
      ((RouterClient.cache_bots stateXY).1,
        clientX.sendOutput (BotId.new "m1/sub") [] []) :=
  ⟨c4_send_dispatch.1 stateXY (BotId.new "m1") [] [] (by decide),
   c4_send_dispatch.2.1 stateXY "missing" "m1" [] [] (by decide) rfl,
   c4_send_dispatch.2.2 stateXY "x" "m1/sub" [] [] clientX (by decide) rfl⟩

/-- C6: on every refresh (the one inside `listBots()` and the one preceding
converse dispatch), the invoked sub-clients are exactly the entries whose
cache is unset or whose cached result reports an error; an entry with a
clean cached success is never refetched — on this call or the next; a key
whose first fetched result is error-free is invoked exactly once across two
back-to-back refreshes, while a key whose first result had an error is
invoked again on the second. -/
theorem c6_cache_refresh_selection (inner : Inner)
    (hnd : (inner.items.map Prod.fst).Nodup) :
    (∀ k, k ∈ (RouterClient.cache_bots inner).2 ↔
      ∃ it, (k, it) ∈ inner.items ∧ RouterClient.refreshNeeded it = true)
  ∧ (∀ k it, (k, it) ∈ inner.items → RouterClient.refreshNeeded it = false →
      k ∉ (RouterClient.cache_bots inner).2 ∧
      k ∉ (RouterClient.cache_bots (RouterClient.cache_bots inner).1).2)
  ∧ (∀ k it, (k, it) ∈ inner.items → RouterClient.refreshNeeded it = true →
      it.client.botsOutput.has_errors = false →
      ((RouterClient.cache_bots inner).2 ++
        (RouterClient.cache_bots (RouterClient.cache_bots inner).1).2).count k
        = 1)
  ∧ (∀ k it, (k, it) ∈ inner.items → RouterClient.refreshNeeded it = true →
      it.client.botsOutput.has_errors = true →
      k ∈ (RouterClient.cache_bots inner).2 ∧
      k ∈ (RouterClient.cache_bots (RouterClient.cache_bots inner).1).2) := by
  have hndpost :
      ((RouterClient.cache_bots inner).1.items.map Prod.fst).Nodup := by
    rw [RouterClient.cache_bots_keys]; exact hnd
  refine ⟨RouterClient.mem_cache_bots_invoked inner, ?_, ?_, ?_⟩
  · intro k it hmem href
    have hpost := RouterClient.cache_bots_entry inner hnd k it hmem
    rw [href] at hpost
    simp only [Bool.false_eq_true, if_false] at hpost
    exact ⟨RouterClient.not_invoked_of_clean inner hnd k it hmem href,
      RouterClient.not_invoked_of_clean _ hndpost k it hpost href⟩
  · intro k it hmem href herr
    have hmem1 : k ∈ (RouterClient.cache_bots inner).2 :=
      (RouterClient.mem_cache_bots_invoked inner k).mpr ⟨it, hmem, href⟩
    have hc1 : (RouterClient.cache_bots inner).2.count k = 1 :=
      List.count_eq_one_of_mem
        (RouterClient.cache_bots_invoked_nodup inner hnd) hmem1
    have hpost := RouterClient.cache_bots_entry inner hnd k it hmem
    rw [href] at hpost
    simp only [if_true] at hpost
    have href' : RouterClient.refreshNeeded
        { it with bots_result := some it.client.botsOutput } = false := by
      simp [RouterClient.refreshNeeded, herr]
    have h2 := RouterClient.not_invoked_of_clean _ hndpost k _ hpost href'
    rw [List.count_append, hc1, List.count_eq_zero_of_not_mem h2]
  · intro k it hmem href herr
    have hpost := RouterClient.cache_bots_entry inner hnd k it hmem
    rw [href] at hpost
    simp only [if_true] at hpost
    have href' : RouterClient.refreshNeeded
        { it with bots_result := some it.client.botsOutput } = true := by
      simp [RouterClient.refreshNeeded, herr]
    exact ⟨(RouterClient.mem_cache_bots_invoked inner k).mpr ⟨it, hmem, href⟩,
      (RouterClient.mem_cache_bots_invoked _ k).mpr ⟨_, hpost, href'⟩⟩

/-- C6 witness: on a router with two uncached entries, the key whose fetch
comes back clean is invoked exactly once across two refreshes, and the key
whose fetch comes back failing is invoked on both. -/
theorem c6_witness :
    ((RouterClient.cache_bots stateC6).2 ++
      (RouterClient.cache_bots (RouterClient.cache_bots stateC6).1).2).count "x"
      = 1
  ∧ ("y" ∈ (RouterClient.cache_bots stateC6).2 ∧
      "y" ∈ (RouterClient.cache_bots (RouterClient.cache_bots stateC6).1).2) :=
  ⟨(c6_cache_refresh_selection stateC6 (by decide)).2.2.1 "x" ⟨clientX, none⟩
      (List.Mem.head _) rfl rfl,
   (c6_cache_refresh_selection stateC6 (by decide)).2.2.2 "y" ⟨clientY, none⟩
      (List.Mem.tail _ (List.Mem.head _)) rfl rfl⟩

/-- C8: `invalidate_bots_cache(key)` keeps every entry with a different key
untouched (same client handle and cached result), sets the named entry's
cached result to unset while keeping its client handle, and a refresh that
follows — when all other entries hold clean cached successes — refetches
exactly the one sub-client under the invalidated key. -/
theorem c8_invalidate_selective (inner : Inner) (key : String) :
    (∀ kv ∈ inner.items, kv.1 ≠ key →
      kv ∈ (RouterClient.invalidate_bots_cache inner key).items)
  ∧ (∀ it, (key, it) ∈ inner.items →
      (key, { it with bots_result := none }) ∈
        (RouterClient.invalidate_bots_cache inner key).items)
  ∧ ((inner.items.map Prod.fst).Nodup →
      key ∈ inner.items.map Prod.fst →
      (∀ kv ∈ inner.items, kv.1 ≠ key →
        ∃ r, kv.2.bots_result = some r ∧ r.has_errors = false) →
      (RouterClient.cache_bots
        (RouterClient.invalidate_bots_cache inner key)).2 = [key]) := by
  refine ⟨?_, ?_, ?_⟩
  · intro kv hkv hne
    rw [RouterClient.invalidate_bots_cache]
    exact List.mem_map.mpr ⟨kv, hkv, by rw [if_neg hne]⟩
  · intro it hmem
    rw [RouterClient.invalidate_bots_cache]
    exact List.mem_map.mpr ⟨(key, it), hmem, by rw [if_pos rfl]⟩
  · intro hnd hkey hclean
    rw [RouterClient.cache_bots_invoked, RouterClient.invalidate_bots_cache]
    exact RouterClient.filter_after_invalidate inner.items key hnd hkey hclean

/-- C8 witness: on a two-entry router with clean caches, invalidating `"a"`
keeps `"b"`'s entry verbatim, unsets only `"a"`'s cache, and the following
refresh invokes exactly `"a"`'s sub-client. -/
theorem c8_witness :
    ("b", (⟨clientY, some (ClientResult.new_ok [])⟩ : Item)) ∈
      (RouterClient.invalidate_bots_cache stateCachedClean "a").items
  ∧ ("a", (⟨clientX, none⟩ : Item)) ∈
      (RouterClient.invalidate_bots_cache stateCachedClean "a").items
  ∧ (RouterClient.cache_bots
      (RouterClient.invalidate_bots_cache stateCachedClean "a")).2 = ["a"] := by
  refine ⟨(c8_invalidate_selective stateCachedClean "a").1 _
      (List.Mem.tail _ (List.Mem.head _)) (by decide),
    (c8_invalidate_selective stateCachedClean "a").2.1
      ⟨clientX, some (ClientResult.new_ok [botOne])⟩ (List.Mem.head _),
    (c8_invalidate_selective stateCachedClean "a").2.2 (by decide) (by decide) ?_⟩
  intro kv hkv hne
  rcases List.mem_cons.mp hkv with h | h
  · rw [h] at hne
    exact absurd rfl hne
  · rcases List.mem_cons.mp h with h1 | h1
    · rw [h1]
      exact ⟨ClientResult.new_ok [], rfl, rfl⟩
    · simp at h1

/-- C9: the write-back step of the refresh only updates keys still present
in the map.  (1) It never changes the key list, so a removed entry is never
re-inserted; (2) results whose key is no longer present are silently
discarded — writing back a result list is the same as writing back only the
results whose key is still in the map, and no error is reported (the step
is total); (3) an entry not targeted by any surviving result is left
verbatim. -/
theorem c9_writeback_drops_removed (inner : Inner)
    (results : List (String × ClientResult (List Bot))) :
    ((RouterClient.writeBack inner results).items.map Prod.fst =
      inner.items.map Prod.fst)
  ∧ (RouterClient.writeBack inner results =
      RouterClient.writeBack inner
        (results.filter (fun kr => (inner.items.map Prod.fst).contains kr.1)))
  ∧ (∀ kv ∈ inner.items, kv.1 ∉ results.map Prod.fst →
      kv ∈ (RouterClient.writeBack inner results).items) :=
  ⟨RouterClient.writeBack_keys inner results,
   RouterClient.writeBack_filter inner results,
   fun kv hkv h => by
    rw [RouterClient.writeBack_items]
    exact List.mem_map.mpr
      ⟨kv, hkv, by rw [RouterClient.wbItem_of_not_mem _ _ _ h]⟩⟩

/-- C9 witness: writing back a result for the since-removed key `"gone"`
into a router that only holds `"x"` changes no key, equals the write-back
of the empty surviving-result list, and leaves `"x"`'s entry verbatim. -/
theorem c9_witness :
    ((RouterClient.writeBack stateXOnly
        [("gone", ClientResult.new_ok [])]).items.map Prod.fst =
      stateXOnly.items.map Prod.fst)
  ∧ (RouterClient.writeBack stateXOnly [("gone", ClientResult.new_ok [])] =
      RouterClient.writeBack stateXOnly
        ([("gone", ClientResult.new_ok [])].filter
          (fun kr => (stateXOnly.items.map Prod.fst).contains kr.1)))
  ∧ ("x", (⟨clientX, none⟩ : Item)) ∈
      (RouterClient.writeBack stateXOnly
        [("gone", ClientResult.new_ok [])]).items :=
  ⟨(c9_writeback_drops_removed stateXOnly [("gone", ClientResult.new_ok [])]).1,
   (c9_writeback_drops_removed stateXOnly [("gone", ClientResult.new_ok [])]).2.1,
   (c9_writeback_drops_removed stateXOnly [("gone", ClientResult.new_ok [])]).2.2
     ("x", ⟨clientX, none⟩) (List.Mem.head _) (by decide)⟩

end Aitk
